import Mathlib

/-!
Verification development for the qbittorrent-operator repository.

The definitions below are shallow embeddings of the Go source:
* `indexOfSub`, `GetTorrentHash` embed `internal/qbittorrent/utils.go`
  (strings are modelled as `List Char`; the repository only handles
  ASCII magnet URIs, so byte indexing and character indexing agree);
* the `Client` operations embed `internal/qbittorrent/client.go`,
  with the HTTP transport abstracted as a function from the request
  the code builds to the response it observes;
* the controller pass embeds the reconciler from
  `internal/controller/torrent_controller.go`, with the outcomes of
  store writes and remote calls supplied by an environment record.
-/

namespace QbtOp

/-- Embeds Go `strings.Index s pat`: index of the first occurrence of
`pat` in `s`, or `none` when absent (Go returns -1). -/
def indexOfSub : List Char → List Char → Option Nat
  | [], pat => if pat.isPrefixOf ([] : List Char) then some 0 else none
  | c :: t, pat =>
      if pat.isPrefixOf (c :: t) then some 0
      else (indexOfSub t pat).map (· + 1)

/-- The `"btih:"` marker searched for by `GetTorrentHash`. -/
def btihMarker : List Char := ['b', 't', 'i', 'h', ':']

/-- Embeds `GetTorrentHash` from `internal/qbittorrent/utils.go`. -/
def GetTorrentHash (magnetURI : List Char) : Except String (List Char) :=
  match indexOfSub magnetURI btihMarker with
  | none => .error "btih not found"
  | some btihIndex =>
    let hashStart := btihIndex + 5
    if hashStart ≥ magnetURI.length then .error "no hash after btih"
    else
      let rest := magnetURI.drop hashStart
      match indexOfSub rest ['&'] with
      | none => .ok rest
      | some hashEnd => .ok (rest.take hashEnd)

/- ### Conditions (k8s `metav1.Condition` and the `apimachinery/pkg/api/meta`
helpers the controller calls). -/

/-- Embeds `metav1.Condition` (the fields the controller uses). -/
structure Condition where
  condType : String
  status : String
  reason : String
  message : String
  lastTransitionTime : Nat
deriving DecidableEq, Repr

/-- `metav1.ConditionTrue`. -/
def conditionTrue : String := "True"

/-- In-place update performed by `meta.SetStatusCondition` on an existing
entry of the same type. -/
def mergeCondition (now : Nat) (old newC : Condition) : Condition :=
  { condType := old.condType
    status := newC.status
    reason := newC.reason
    message := newC.message
    lastTransitionTime :=
      if old.status ≠ newC.status then
        (if newC.lastTransitionTime ≠ 0 then newC.lastTransitionTime else now)
      else old.lastTransitionTime }

/-- Embeds `meta.SetStatusCondition`: update the first entry with the new
condition's type, or append the new condition when no entry has it. -/
def setStatusCondition (now : Nat) : List Condition → Condition → List Condition
  | [], n => [if n.lastTransitionTime = 0 then { n with lastTransitionTime := now } else n]
  | c :: rest, n =>
      if c.condType = n.condType then mergeCondition now c n :: rest
      else c :: setStatusCondition now rest n

/-- Embeds `meta.RemoveStatusCondition`: drop all entries of the type. -/
def removeStatusCondition (conds : List Condition) (ty : String) : List Condition :=
  conds.filter (fun c => c.condType != ty)

/-- Whether the list holds an entry of the type with status True. -/
def hasCondTrue (conds : List Condition) (ty : String) : Bool :=
  conds.any (fun c => c.condType == ty && c.status == conditionTrue)

/-- Whether the list holds an entry of the type with status True and the
given reason. -/
def hasCondTrueReason (conds : List Condition) (ty reason : String) : Bool :=
  conds.any (fun c => c.condType == ty && c.status == conditionTrue && c.reason == reason)

/- ### Data model (api/v1alpha1 types and the client's TorrentInfo). -/

/-- Embeds `qbittorrent.TorrentInfo` (client.go). -/
structure TorrentInfo where
  addedOn : Int
  amountLeft : Int
  contentPath : String
  hash : String
  magnetURI : String
  name : String
  size : Int
  state : String
  totalSize : Int
  timeActive : Int
deriving DecidableEq, Repr

/-- Embeds `TorrentStatus` (api/v1alpha1/torrent_types.go). -/
structure TorrentStatus where
  contentPath : String
  addedOn : Int
  state : String
  totalSize : Int
  name : String
  timeActive : Int
  amountLeft : Int
  hash : String
  conditions : List Condition
deriving DecidableEq, Repr

/-- Embeds the `Torrent` resource: deletion marker, finalizer list, the
spec's magnet URI and the status. -/
structure Torrent where
  deletionTimestampSet : Bool
  finalizers : List String
  magnetURI : String
  status : TorrentStatus
deriving DecidableEq, Repr

/-- Condition type `"Available"` (torrent_controller.go). -/
def TypeAvailableTorrent : String := "Available"

/-- Condition type `"Degraded"` (torrent_controller.go). -/
def TypeDegradedTorrent : String := "Degraded"

/-- The finalizer token (torrent_controller.go). -/
def TorrentFinalizer : String := "torrent.qbittorrent.io/finalizer"

/-- Embeds `controllerutil.ContainsFinalizer`. -/
def containsFinalizer (t : Torrent) (f : String) : Bool :=
  t.finalizers.contains f

/-- Embeds `controllerutil.AddFinalizer`: append when absent. -/
def addFinalizer (t : Torrent) (f : String) : Torrent :=
  if t.finalizers.contains f then t
  else { t with finalizers := t.finalizers ++ [f] }

/-- Embeds `controllerutil.RemoveFinalizer`: remove all occurrences. -/
def removeFinalizer (t : Torrent) (f : String) : Torrent :=
  { t with finalizers := t.finalizers.filter (fun g => g != f) }

/-- Embeds `setDegradedCondition`: set Degraded=True, then remove any
Available condition. -/
def setDegradedCondition (now : Nat) (t : Torrent) (reason message : String) : Torrent :=
  let conds := setStatusCondition now t.status.conditions
    { condType := TypeDegradedTorrent, status := conditionTrue
      reason := reason, message := message, lastTransitionTime := now }
  let conds := removeStatusCondition conds TypeAvailableTorrent
  { t with status := { t.status with conditions := conds } }

/-- Embeds `setAvailableCondition`: set Available=True, then remove any
Degraded condition. -/
def setAvailableCondition (now : Nat) (t : Torrent) (reason message : String) : Torrent :=
  let conds := setStatusCondition now t.status.conditions
    { condType := TypeAvailableTorrent, status := conditionTrue
      reason := reason, message := message, lastTransitionTime := now }
  let conds := removeStatusCondition conds TypeDegradedTorrent
  { t with status := { t.status with conditions := conds } }

/-- One comparison step of `updateTorrentStatus`: the `hash` field. -/
def updHash (qb : TorrentInfo) (p : TorrentStatus × Bool) : TorrentStatus × Bool :=
  if p.1.hash ≠ qb.hash then ({ p.1 with hash := qb.hash }, true) else p

/-- One comparison step of `updateTorrentStatus`: the `name` field. -/
def updName (qb : TorrentInfo) (p : TorrentStatus × Bool) : TorrentStatus × Bool :=
  if p.1.name ≠ qb.name then ({ p.1 with name := qb.name }, true) else p

/-- One comparison step of `updateTorrentStatus`: the `state` field. -/
def updState (qb : TorrentInfo) (p : TorrentStatus × Bool) : TorrentStatus × Bool :=
  if p.1.state ≠ qb.state then ({ p.1 with state := qb.state }, true) else p

/-- One comparison step of `updateTorrentStatus`: the `totalSize` field. -/
def updTotalSize (qb : TorrentInfo) (p : TorrentStatus × Bool) : TorrentStatus × Bool :=
  if p.1.totalSize ≠ qb.totalSize then ({ p.1 with totalSize := qb.totalSize }, true) else p

/-- One comparison step of `updateTorrentStatus`: the `contentPath` field. -/
def updContentPath (qb : TorrentInfo) (p : TorrentStatus × Bool) : TorrentStatus × Bool :=
  if p.1.contentPath ≠ qb.contentPath then
    ({ p.1 with contentPath := qb.contentPath }, true) else p

/-- One comparison step of `updateTorrentStatus`: the `addedOn` field. -/
def updAddedOn (qb : TorrentInfo) (p : TorrentStatus × Bool) : TorrentStatus × Bool :=
  if p.1.addedOn ≠ qb.addedOn then ({ p.1 with addedOn := qb.addedOn }, true) else p

/-- One comparison step of `updateTorrentStatus`: the `timeActive` field. -/
def updTimeActive (qb : TorrentInfo) (p : TorrentStatus × Bool) : TorrentStatus × Bool :=
  if p.1.timeActive ≠ qb.timeActive then ({ p.1 with timeActive := qb.timeActive }, true) else p

/-- One comparison step of `updateTorrentStatus`: the `amountLeft` field. -/
def updAmountLeft (qb : TorrentInfo) (p : TorrentStatus × Bool) : TorrentStatus × Bool :=
  if p.1.amountLeft ≠ qb.amountLeft then ({ p.1 with amountLeft := qb.amountLeft }, true) else p

/-- Embeds `updateTorrentStatus`: field-by-field diff against the remote
record, in source order, overwriting differing fields; returns the status
and whether any field changed. -/
def updateTorrentStatus (st : TorrentStatus) (qb : TorrentInfo) : TorrentStatus × Bool :=
  updAmountLeft qb (updTimeActive qb (updAddedOn qb (updContentPath qb
    (updTotalSize qb (updState qb (updName qb (updHash qb (st, false))))))))

/-- All eight observed fields agree with the remote record. -/
def statusMatches (st : TorrentStatus) (qb : TorrentInfo) : Bool :=
  st.hash == qb.hash && st.name == qb.name && st.state == qb.state
    && st.totalSize == qb.totalSize && st.contentPath == qb.contentPath
    && st.addedOn == qb.addedOn && st.timeActive == qb.timeActive
    && st.amountLeft == qb.amountLeft

/- ### The reconciliation pass. -/

/-- Errors a pass can return to the runtime. -/
inductive PassError where
  | storeWrite (msg : String)
  | malformedURI (msg : String)
deriving DecidableEq, Repr

/-- Embeds `ctrl.Result` plus the returned error: `requeueAfterSeconds = 0`
models the zero `ctrl.Result{}`. -/
structure ReconResult where
  requeueAfterSeconds : Nat
  passError : Option PassError
deriving DecidableEq, Repr

/-- The remote-service calls a pass can perform, recorded as a trace. -/
inductive RemoteCall where
  | deleteTorrent
  | getTorrentInfo
  | addTorrent
deriving DecidableEq, Repr

/-- Outcomes of the store writes and remote calls during one pass.
`statusUpdateError k` is the outcome of the k-th `Status().Update`
whose result the code inspects. -/
structure ControllerEnv where
  now : Nat
  deleteTorrentError : Option String
  getTorrentInfoResult : Except String (Option TorrentInfo)
  addTorrentError : Option String
  resourceUpdateError : Option String
  statusUpdateError : Nat → Option String

/-- Embeds `handleDeletion` (torrent_controller.go). -/
def handleDeletion (env : ControllerEnv) (t : Torrent) :
    Torrent × ReconResult × List RemoteCall :=
  if t.status.hash ≠ "" then
    match env.deleteTorrentError with
    | some emsg =>
        (setDegradedCondition env.now t "FailedToDeleteTorrent" emsg,
         ⟨10, none⟩, [.deleteTorrent])
    | none =>
        match env.resourceUpdateError with
        | some emsg =>
            (removeFinalizer t TorrentFinalizer,
             ⟨0, some (.storeWrite emsg)⟩, [.deleteTorrent])
        | none => (removeFinalizer t TorrentFinalizer, ⟨0, none⟩, [.deleteTorrent])
  else
    match env.resourceUpdateError with
    | some emsg =>
        (removeFinalizer t TorrentFinalizer, ⟨0, some (.storeWrite emsg)⟩, [])
    | none => (removeFinalizer t TorrentFinalizer, ⟨0, none⟩, [])

/-- Embeds the lowercase `reconcile` (Step 4 of torrent_controller.go). -/
def reconcile (env : ControllerEnv) (t : Torrent) :
    Torrent × ReconResult × List RemoteCall :=
  match GetTorrentHash t.magnetURI.data with
  | .error emsg => (t, ⟨0, some (.malformedURI emsg)⟩, [])
  | .ok _ =>
    match env.getTorrentInfoResult with
    | .error emsg =>
        (setDegradedCondition env.now t "FailedToGetTorrentInfo" emsg,
         ⟨10, none⟩, [.getTorrentInfo])
    | .ok none =>
        match env.addTorrentError with
        | some emsg =>
            (setDegradedCondition env.now t "FailedToAddTorrent" emsg,
             ⟨10, none⟩, [.getTorrentInfo, .addTorrent])
        | none =>
            (setAvailableCondition env.now t "TorrentAdded"
               "Torrent added to qBittorrent",
             ⟨5, none⟩, [.getTorrentInfo, .addTorrent])
    | .ok (some info) =>
        if (updateTorrentStatus t.status info).2 then
          match env.statusUpdateError 0 with
          | some emsg =>
              ({ t with status := (updateTorrentStatus t.status info).1 },
               ⟨0, some (.storeWrite emsg)⟩, [.getTorrentInfo])
          | none =>
              (setAvailableCondition env.now
                 { t with status := (updateTorrentStatus t.status info).1 }
                 "TorrentActive" "Torrent is active on qBittorrent",
               ⟨30, none⟩, [.getTorrentInfo])
        else
          (setAvailableCondition env.now
             { t with status := (updateTorrentStatus t.status info).1 }
             "TorrentActive" "Torrent is active on qBittorrent",
           ⟨30, none⟩, [.getTorrentInfo])

/-- Embeds `Reconcile` (after the resource has been fetched): deletion
branch, finalizer registration, then the business logic. -/
def Reconcile (env : ControllerEnv) (t : Torrent) :
    Torrent × ReconResult × List RemoteCall :=
  if t.deletionTimestampSet then handleDeletion env t
  else if containsFinalizer t TorrentFinalizer = false then
    match env.resourceUpdateError with
    | some emsg => (addFinalizer t TorrentFinalizer, ⟨0, some (.storeWrite emsg)⟩, [])
    | none => (addFinalizer t TorrentFinalizer, ⟨1, none⟩, [])
  else reconcile env t

/- ### The qBittorrent HTTP client (client.go). -/

/-- The request the client builds: method, URL, the SID cookie attached
(empty when none), and the form fields carried in the body. -/
structure HttpRequest where
  method : String
  url : String
  cookieSID : String
  formFields : List (String × String)
deriving DecidableEq, Repr

/-- Response to the login call: status and cookies `(name, value)`. -/
structure LoginResponse where
  statusCode : Nat
  cookies : List (String × String)
deriving DecidableEq, Repr

/-- Response to the torrents-info call: status and the JSON-decode
outcome of the body. -/
structure InfoResponse where
  statusCode : Nat
  decodedBody : Except String (List TorrentInfo)

/-- Response to the add/delete calls: only the status matters. -/
structure StatusResponse where
  statusCode : Nat
deriving DecidableEq, Repr

/-- Embeds the `Client` struct: base URL and mutable session token. -/
structure Client where
  baseURL : String
  sessionID : String
deriving DecidableEq, Repr

/-- The cookie loop in `Login`: first cookie named SID, if any. -/
def findSID : List (String × String) → Option String
  | [] => none
  | (n, v) :: rest => if n = "SID" then some v else findSID rest

/-- Embeds `Login`. Returns the (possibly updated) client and an error
message when the call fails. -/
def Login (c : Client) (transport : HttpRequest → Except String LoginResponse)
    (username password : String) : Client × Option String :=
  match transport { method := "POST", url := c.baseURL ++ "/api/v2/auth/login"
                    cookieSID := ""
                    formFields := [("username", username), ("password", password)] } with
  | .error e => (c, some ("failed to login to qbittorrent: " ++ e))
  | .ok r =>
    if r.statusCode ≠ 200 then
      (c, some ("failed to login to qbittorrent. Status: " ++ toString r.statusCode))
    else
      match findSID r.cookies with
      | some v =>
          if ({ c with sessionID := v } : Client).sessionID = "" then
            ({ c with sessionID := v },
             some "failed to get session ID from qbittorrent response")
          else ({ c with sessionID := v }, none)
      | none =>
          if c.sessionID = "" then
            (c, some "failed to get session ID from qbittorrent response")
          else (c, none)

/-- Embeds `GetTorrentsInfo`. -/
def GetTorrentsInfo (c : Client)
    (transport : HttpRequest → Except String InfoResponse) :
    Client × Except String (List TorrentInfo) :=
  match transport { method := "GET", url := c.baseURL ++ "/api/v2/torrents/info"
                    cookieSID := c.sessionID, formFields := [] } with
  | .error e => (c, .error ("failed to get torrents info list: " ++ e))
  | .ok resp =>
    if resp.statusCode ≠ 200 then
      if resp.statusCode = 401 then (c, .error "unauthorized access to qbittorrent")
      else (c, .error ("failed to get torrents info list. Status: "
                        ++ toString resp.statusCode))
    else
      match resp.decodedBody with
      | .error e => (c, .error ("failed to parse torrents info list: " ++ e))
      | .ok l => (c, .ok l)

/-- The linear scan in `GetTorrentInfo`: first record with the hash. -/
def findTorrent : List TorrentInfo → String → Option TorrentInfo
  | [], _ => none
  | ti :: rest, h => if ti.hash = h then some ti else findTorrent rest h

/-- Embeds `GetTorrentInfo`: list, then scan; absence is `.ok none`. -/
def GetTorrentInfo (c : Client)
    (transport : HttpRequest → Except String InfoResponse) (hash : String) :
    Client × Except String (Option TorrentInfo) :=
  match GetTorrentsInfo c transport with
  | (c1, .error e) => (c1, .error ("failed to get torrents info list: " ++ e))
  | (c1, .ok l) => (c1, .ok (findTorrent l hash))

/-- Embeds `AddTorrent`. The magnet URI is written twice as a `urls`
field, mirroring the redundant multipart encoding in the source. -/
def AddTorrent (c : Client) (transport : HttpRequest → Except String StatusResponse)
    (magnetURI : String) : Client × Option String :=
  match transport { method := "POST", url := c.baseURL ++ "/api/v2/torrents/add"
                    cookieSID := c.sessionID
                    formFields := [("urls", magnetURI), ("urls", magnetURI)] } with
  | .error e => (c, some ("failed to add torrent: " ++ e))
  | .ok resp =>
    if resp.statusCode ≠ 200 then
      if resp.statusCode = 401 then (c, some "unauthorized access to qbittorrent")
      else (c, some ("failed to add torrent. Status: " ++ toString resp.statusCode))
    else (c, none)

/-- Embeds `DeleteTorrent`. -/
def DeleteTorrent (c : Client) (transport : HttpRequest → Except String StatusResponse)
    (hash : String) (deleteFiles : Bool) : Client × Option String :=
  match transport { method := "POST", url := c.baseURL ++ "/api/v2/torrents/delete"
                    cookieSID := c.sessionID
                    formFields := [("hashes", hash),
                      ("deleteFiles", if deleteFiles then "true" else "false")] } with
  | .error e => (c, some ("failed to delete torrent: " ++ e))
  | .ok resp =>
    if resp.statusCode ≠ 200 then
      if resp.statusCode = 401 then (c, some "unauthorized access to qbittorrent")
      else (c, some ("failed to delete torrent. Status: " ++ toString resp.statusCode))
    else (c, none)

/-- Exclusivity of the Available/Degraded conditions (spec §3 invariant). -/
def conditionsExclusive (conds : List Condition) : Prop :=
  ¬(hasCondTrue conds TypeAvailableTorrent = true
    ∧ hasCondTrue conds TypeDegradedTorrent = true)

/- Equation lemmas for `indexOfSub`. -/

theorem indexOfSub_pos {s pat : List Char} (h : pat.isPrefixOf s = true) :
    indexOfSub s pat = some 0 := by
  cases s <;> simp only [indexOfSub, h, if_true]

theorem indexOfSub_neg_cons {c : Char} {t pat : List Char}
    (h : pat.isPrefixOf (c :: t) = false) :
    indexOfSub (c :: t) pat = (indexOfSub t pat).map (· + 1) := by
  simp only [indexOfSub, h, Bool.false_eq_true, if_false]

theorem indexOfSub_none_cons {c : Char} {t pat : List Char}
    (h : indexOfSub (c :: t) pat = none) :
    pat.isPrefixOf (c :: t) = false ∧ indexOfSub t pat = none := by
  rcases hb : pat.isPrefixOf (c :: t) with _ | _
  · refine ⟨rfl, ?_⟩
    rw [indexOfSub_neg_cons hb] at h
    simpa using h
  · rw [indexOfSub_pos hb] at h
    cases h

theorem isPrefixOf_append_of_le {pat s ext : List Char} (h : pat.length ≤ s.length) :
    pat.isPrefixOf (s ++ ext) = pat.isPrefixOf s := by
  induction pat generalizing s with
  | nil => simp [List.isPrefixOf]
  | cons a pa ih =>
    cases s with
    | nil => simp at h
    | cons b bs =>
      simp only [List.cons_append, List.isPrefixOf]
      rw [show bs.append ext = bs ++ ext from rfl,
          ih (by simpa using Nat.le_of_succ_le_succ h)]

theorem isPrefixOf_self_append (l r : List Char) : l.isPrefixOf (l ++ r) = true := by
  induction l with
  | nil => simp [List.isPrefixOf]
  | cons a t ih => simp [List.isPrefixOf, ih]

/-- Appending the first four characters of the marker to a string free of
the marker cannot create an occurrence of the marker (`"btih:"` has no
self-overlap, and its last character `:` does not occur in `btih`). -/
theorem indexOfSub_append_btih4 {p : List Char}
    (hp : indexOfSub p btihMarker = none) :
    indexOfSub (p ++ ['b', 't', 'i', 'h']) btihMarker = none := by
  induction p with
  | nil =>
    simp only [List.nil_append]
    decide
  | cons c p' ih =>
    obtain ⟨hpre, htail⟩ := indexOfSub_none_cons hp
    have ih' := ih htail
    have hnot : btihMarker.isPrefixOf ((c :: p') ++ ['b', 't', 'i', 'h']) = false := by
      rcases p' with _ | ⟨a, _ | ⟨b, _ | ⟨d, _ | ⟨e, p''⟩⟩⟩⟩
      · rcases hx : btihMarker.isPrefixOf ([c] ++ ['b', 't', 'i', 'h']) with _ | _
        · rfl
        · exfalso
          revert hx
          simp [btihMarker, List.isPrefixOf]
      · rcases hx : btihMarker.isPrefixOf ([c, a] ++ ['b', 't', 'i', 'h']) with _ | _
        · rfl
        · exfalso
          revert hx
          simp [btihMarker, List.isPrefixOf]
      · rcases hx : btihMarker.isPrefixOf ([c, a, b] ++ ['b', 't', 'i', 'h']) with _ | _
        · rfl
        · exfalso
          revert hx
          simp [btihMarker, List.isPrefixOf]
      · rcases hx : btihMarker.isPrefixOf ([c, a, b, d] ++ ['b', 't', 'i', 'h']) with _ | _
        · rfl
        · exfalso
          revert hx
          simp [btihMarker, List.isPrefixOf]
      · rw [isPrefixOf_append_of_le (by simp [btihMarker])]
        exact hpre
    rw [show (c :: p') ++ ['b', 't', 'i', 'h'] = c :: (p' ++ ['b', 't', 'i', 'h'])
          from rfl] at hnot
    rw [show (c :: p') ++ ['b', 't', 'i', 'h'] = c :: (p' ++ ['b', 't', 'i', 'h'])
          from rfl, indexOfSub_neg_cons hnot, ih']
    rfl

/-- If the marker does not occur in `p`, its first occurrence in
`p ++ btihMarker ++ rest` is exactly at index `p.length`. -/
theorem indexOfSub_marker_boundary {p : List Char} (rest : List Char)
    (hp : indexOfSub p btihMarker = none) :
    indexOfSub (p ++ btihMarker ++ rest) btihMarker = some p.length := by
  induction p with
  | nil =>
    simp only [List.nil_append, List.length_nil]
    exact indexOfSub_pos (isPrefixOf_self_append _ _)
  | cons c p' ih =>
    obtain ⟨hpre, htail⟩ := indexOfSub_none_cons hp
    have hb4 : indexOfSub ((c :: p') ++ ['b', 't', 'i', 'h']) btihMarker = none :=
      indexOfSub_append_btih4 hp
    have hnot : btihMarker.isPrefixOf ((c :: p') ++ btihMarker ++ rest) = false := by
      have h1 : btihMarker.isPrefixOf ((c :: p') ++ ['b', 't', 'i', 'h']) = false := by
        rcases hx : btihMarker.isPrefixOf ((c :: p') ++ ['b', 't', 'i', 'h']) with _ | _
        · rfl
        · rw [indexOfSub_pos hx] at hb4
          cases hb4
      calc btihMarker.isPrefixOf ((c :: p') ++ btihMarker ++ rest)
          = btihMarker.isPrefixOf (((c :: p') ++ ['b', 't', 'i', 'h'])
              ++ (':' :: rest)) := by simp [btihMarker]
        _ = btihMarker.isPrefixOf ((c :: p') ++ ['b', 't', 'i', 'h']) :=
            isPrefixOf_append_of_le (by simp [btihMarker])
        _ = false := h1
    have ihr := ih htail
    rw [show (c :: p') ++ btihMarker ++ rest = c :: (p' ++ btihMarker ++ rest)
          from by simp] at hnot ⊢
    rw [indexOfSub_neg_cons hnot, ihr]
    rfl

/-- First occurrence of a single character not occurring in the left part
of an append. -/
theorem indexOfSub_single_append {h : List Char} (ch : Char) (tail : List Char)
    (hch : ch ∉ h) :
    indexOfSub (h ++ ch :: tail) [ch] = some h.length := by
  induction h with
  | nil =>
    simp only [List.nil_append, List.length_nil]
    exact indexOfSub_pos (by simp [List.isPrefixOf])
  | cons a t ih =>
    have ha : (ch == a) = false := by
      have : a ≠ ch := fun hac => hch (by simp [hac])
      simp [this.symm]
    have hnot : ([ch] : List Char).isPrefixOf (a :: (t ++ ch :: tail)) = false := by
      simp [List.isPrefixOf, ha]
    rw [show (a :: t) ++ ch :: tail = a :: (t ++ ch :: tail) from rfl,
        indexOfSub_neg_cons hnot, ih (fun hm => hch (by simp [hm]))]
    rfl

/-- Absence of a single character means `indexOfSub` finds nothing. -/
theorem indexOfSub_single_none {h : List Char} (ch : Char) (hch : ch ∉ h) :
    indexOfSub h [ch] = none := by
  induction h with
  | nil => simp [indexOfSub, List.isPrefixOf]
  | cons a t ih =>
    have ha : (ch == a) = false := by
      have : a ≠ ch := fun hac => hch (by simp [hac])
      simp [this.symm]
    have hnot : ([ch] : List Char).isPrefixOf (a :: t) = false := by
      simp [List.isPrefixOf, ha]
    rw [indexOfSub_neg_cons hnot, ih (fun hm => hch (by simp [hm]))]
    rfl

/-- `GetTorrentHash` on an input whose first marker occurrence is at `i`
and which has at least one character after the marker. -/
theorem getTorrentHash_of_index {s : List Char} {i : Nat}
    (hidx : indexOfSub s btihMarker = some i) (hlt : i + 5 < s.length) :
    GetTorrentHash s =
      match indexOfSub (s.drop (i + 5)) ['&'] with
      | none => .ok (s.drop (i + 5))
      | some hashEnd => .ok ((s.drop (i + 5)).take hashEnd) := by
  unfold GetTorrentHash
  rw [hidx]
  simp only [ge_iff_le, Nat.not_le.mpr hlt, if_false]

/-- Length of the marker, for index arithmetic. -/
theorem btihMarker_length : btihMarker.length = 5 := rfl

/-- Claim C3, counterexample: the extraction rule as stated is not true for
every decomposition `prefixPart ++ "btih:" ++ H ++ "&" ++ suffixPart`; when
the prefix part itself contains the marker, extraction returns the token
after the first marker, not `H`. Here `"btih:a&" ++ "btih:" ++ "b" ++ "&"`
extracts `"a"`, not `"b"`. -/
theorem getTorrentHash_form_counterexample :
    ¬ (∀ (pre H sfx : List Char),
        GetTorrentHash (pre ++ btihMarker ++ H ++ '&' :: sfx) = Except.ok H) := by
  intro hclaim
  have h := hclaim ['b', 't', 'i', 'h', ':', 'a', '&'] ['b'] []
  have hev : GetTorrentHash
      (['b', 't', 'i', 'h', ':', 'a', '&'] ++ btihMarker ++ ['b'] ++ '&' :: ([] : List Char))
      = Except.ok ['a'] := rfl
  rw [hev] at h
  have : (['a'] : List Char) = ['b'] := by injection h
  exact absurd this (by decide)

/-- Claim C3 (amended): provided the prefix part contains no `"btih:"`
marker and `H` contains no `'&'`, extraction on
`pre ++ "btih:" ++ H ++ "&" ++ sfx` returns exactly `H`; on
`pre ++ "btih:" ++ H` with `H` non-empty it returns `H` through end of
string; with nothing after the marker, or with no marker at all, it
returns a malformed-URI error. `H` is arbitrary: no validation of its
length or character set is performed. -/
theorem getTorrentHash_extraction (pre H sfx : List Char)
    (hpre : indexOfSub pre btihMarker = none)
    (hH : '&' ∉ H) :
    GetTorrentHash (pre ++ btihMarker ++ H ++ '&' :: sfx) = .ok H
    ∧ (H ≠ [] → GetTorrentHash (pre ++ btihMarker ++ H) = .ok H)
    ∧ GetTorrentHash (pre ++ btihMarker) = .error "no hash after btih"
    ∧ (∀ s : List Char, indexOfSub s btihMarker = none →
        GetTorrentHash s = .error "btih not found") := by
  refine ⟨?_, ?_, ?_, ?_⟩
  · have hassoc : pre ++ btihMarker ++ H ++ '&' :: sfx
        = pre ++ btihMarker ++ (H ++ '&' :: sfx) := by
      simp [List.append_assoc]
    rw [hassoc]
    have hidx : indexOfSub (pre ++ btihMarker ++ (H ++ '&' :: sfx)) btihMarker
        = some pre.length := indexOfSub_marker_boundary _ hpre
    have hlt : pre.length + 5 < (pre ++ btihMarker ++ (H ++ '&' :: sfx)).length := by
      simp only [List.length_append, btihMarker_length, List.length_cons]
      omega
    have hdrop : (pre ++ btihMarker ++ (H ++ '&' :: sfx)).drop (pre.length + 5)
        = H ++ '&' :: sfx := by
      rw [show pre.length + 5 = (pre ++ btihMarker).length by simp [btihMarker]]
      exact List.drop_left _ _
    rw [getTorrentHash_of_index hidx hlt, hdrop,
        indexOfSub_single_append '&' sfx hH]
    simp [List.take_left]
  · intro hne
    have hidx : indexOfSub (pre ++ btihMarker ++ H) btihMarker = some pre.length :=
      indexOfSub_marker_boundary _ hpre
    have hlt : pre.length + 5 < (pre ++ btihMarker ++ H).length := by
      have : 0 < H.length := List.length_pos.mpr hne
      simp only [List.length_append, btihMarker_length]
      omega
    have hdrop : (pre ++ btihMarker ++ H).drop (pre.length + 5) = H := by
      rw [show pre.length + 5 = (pre ++ btihMarker).length by simp [btihMarker]]
      exact List.drop_left _ _
    rw [getTorrentHash_of_index hidx hlt, hdrop, indexOfSub_single_none '&' hH]
  · have hidx : indexOfSub (pre ++ btihMarker) btihMarker = some pre.length := by
      have := indexOfSub_marker_boundary [] hpre
      simpa using this
    unfold GetTorrentHash
    rw [hidx]
    have hge : (pre ++ btihMarker).length ≤ pre.length + 5 := by
      simp [btihMarker]
    simp only [ge_iff_le, hge, if_true]
  · intro s hs
    unfold GetTorrentHash
    rw [hs]

/-- Witness for `getTorrentHash_extraction` at a concrete magnet URI. -/
theorem getTorrentHash_extraction_witness :
    GetTorrentHash (['x', 't', '='] ++ btihMarker ++ ['A', 'B', 'C'] ++ '&' :: ['d', 'n'])
      = .ok ['A', 'B', 'C'] :=
  (getTorrentHash_extraction ['x', 't', '='] ['A', 'B', 'C'] ['d', 'n']
    (by decide) (by decide)).1

/- ### Condition-list algebra. -/

theorem hasCondTrue_remove_self (conds : List Condition) (ty : String) :
    hasCondTrue (removeStatusCondition conds ty) ty = false := by
  induction conds with
  | nil => rfl
  | cons c rest ih =>
    rcases h : (c.condType != ty) with _ | _
    · simpa [removeStatusCondition, List.filter_cons, h] using ih
    · have hne : (c.condType == ty) = false := by
        simpa [bne] using h
      simp only [removeStatusCondition, List.filter_cons, h, if_true]
      simp only [hasCondTrue, List.any_cons, hne, Bool.false_and, Bool.false_or]
      simpa [removeStatusCondition, hasCondTrue] using ih

theorem hasCondTrueReason_remove_other (conds : List Condition) {ty ty' : String}
    (reason : String) (h : ty ≠ ty') :
    hasCondTrueReason (removeStatusCondition conds ty') ty reason
      = hasCondTrueReason conds ty reason := by
  induction conds with
  | nil => rfl
  | cons c rest ih =>
    rcases hk : (c.condType != ty') with _ | _
    · have hcty : c.condType = ty' := by
        simpa [bne] using hk
      have hne : (c.condType == ty) = false := by
        simp [hcty, beq_iff_eq]
        exact fun he => h he.symm
      simp only [removeStatusCondition, List.filter_cons, hk, Bool.false_eq_true, if_false]
      simp only [hasCondTrueReason, List.any_cons, hne, Bool.false_and, Bool.false_or]
      simpa [removeStatusCondition, hasCondTrueReason] using ih
    · simp only [removeStatusCondition, List.filter_cons, hk, if_true]
      simp only [hasCondTrueReason, List.any_cons]
      rw [show (List.filter (fun c => c.condType != ty') rest).any
            (fun c => c.condType == ty && c.status == conditionTrue && c.reason == reason)
          = hasCondTrueReason (removeStatusCondition rest ty') ty reason from rfl, ih]
      rfl

theorem hasCondTrueReason_set (now : Nat) (conds : List Condition) (n : Condition)
    (hst : n.status = conditionTrue) :
    hasCondTrueReason (setStatusCondition now conds n) n.condType n.reason = true := by
  induction conds with
  | nil =>
    by_cases hz : n.lastTransitionTime = 0 <;>
      simp [setStatusCondition, hasCondTrueReason, hz, hst]
  | cons c rest ih =>
    by_cases h : c.condType = n.condType
    · simp [setStatusCondition, h, hasCondTrueReason, mergeCondition, hst]
    · simp only [setStatusCondition, h, if_false]
      simp only [hasCondTrueReason, List.any_cons]
      rw [show (setStatusCondition now rest n).any
            (fun c => c.condType == n.condType && c.status == conditionTrue
              && c.reason == n.reason)
          = hasCondTrueReason (setStatusCondition now rest n) n.condType n.reason from rfl,
          ih]
      simp

theorem hasCondTrue_of_reason {conds : List Condition} {ty reason : String}
    (h : hasCondTrueReason conds ty reason = true) : hasCondTrue conds ty = true := by
  induction conds with
  | nil => cases h
  | cons c rest ih =>
    simp only [hasCondTrueReason, List.any_cons, Bool.or_eq_true] at h
    simp only [hasCondTrue, List.any_cons, Bool.or_eq_true]
    rcases h with h | h
    · left
      simp only [Bool.and_eq_true] at h ⊢
      exact h.1
    · right
      exact ih h

/-- `setDegradedCondition` leaves a Degraded=True entry with the reason. -/
theorem setDegraded_has_degraded (now : Nat) (t : Torrent) (reason message : String) :
    hasCondTrueReason (setDegradedCondition now t reason message).status.conditions
      TypeDegradedTorrent reason = true := by
  unfold setDegradedCondition
  rw [hasCondTrueReason_remove_other _ _ (by decide)]
  exact hasCondTrueReason_set now t.status.conditions _ rfl

/-- `setDegradedCondition` removes every Available entry. -/
theorem setDegraded_no_available (now : Nat) (t : Torrent) (reason message : String) :
    hasCondTrue (setDegradedCondition now t reason message).status.conditions
      TypeAvailableTorrent = false := by
  unfold setDegradedCondition
  exact hasCondTrue_remove_self _ _

/-- `setAvailableCondition` removes every Degraded entry. -/
theorem setAvailable_no_degraded (now : Nat) (t : Torrent) (reason message : String) :
    hasCondTrue (setAvailableCondition now t reason message).status.conditions
      TypeDegradedTorrent = false := by
  unfold setAvailableCondition
  exact hasCondTrue_remove_self _ _

theorem setDegraded_exclusive (now : Nat) (t : Torrent) (reason message : String) :
    conditionsExclusive (setDegradedCondition now t reason message).status.conditions := by
  intro ⟨ha, _⟩
  rw [setDegraded_no_available] at ha
  cases ha

theorem setAvailable_exclusive (now : Nat) (t : Torrent) (reason message : String) :
    conditionsExclusive (setAvailableCondition now t reason message).status.conditions := by
  intro ⟨_, hd⟩
  rw [setAvailable_no_degraded] at hd
  cases hd

/- ### Frame lemmas for the pass. -/

theorem addFinalizer_status (t : Torrent) (f : String) :
    (addFinalizer t f).status = t.status := by
  unfold addFinalizer
  split <;> rfl

theorem removeFinalizer_status (t : Torrent) (f : String) :
    (removeFinalizer t f).status = t.status := rfl

theorem updHash_conditions (qb : TorrentInfo) (p : TorrentStatus × Bool) :
    (updHash qb p).1.conditions = p.1.conditions := by
  unfold updHash
  split <;> rfl

theorem updName_conditions (qb : TorrentInfo) (p : TorrentStatus × Bool) :
    (updName qb p).1.conditions = p.1.conditions := by
  unfold updName
  split <;> rfl

theorem updState_conditions (qb : TorrentInfo) (p : TorrentStatus × Bool) :
    (updState qb p).1.conditions = p.1.conditions := by
  unfold updState
  split <;> rfl

theorem updTotalSize_conditions (qb : TorrentInfo) (p : TorrentStatus × Bool) :
    (updTotalSize qb p).1.conditions = p.1.conditions := by
  unfold updTotalSize
  split <;> rfl

theorem updContentPath_conditions (qb : TorrentInfo) (p : TorrentStatus × Bool) :
    (updContentPath qb p).1.conditions = p.1.conditions := by
  unfold updContentPath
  split <;> rfl

theorem updAddedOn_conditions (qb : TorrentInfo) (p : TorrentStatus × Bool) :
    (updAddedOn qb p).1.conditions = p.1.conditions := by
  unfold updAddedOn
  split <;> rfl

theorem updTimeActive_conditions (qb : TorrentInfo) (p : TorrentStatus × Bool) :
    (updTimeActive qb p).1.conditions = p.1.conditions := by
  unfold updTimeActive
  split <;> rfl

theorem updAmountLeft_conditions (qb : TorrentInfo) (p : TorrentStatus × Bool) :
    (updAmountLeft qb p).1.conditions = p.1.conditions := by
  unfold updAmountLeft
  split <;> rfl

theorem updateTorrentStatus_conditions (st : TorrentStatus) (qb : TorrentInfo) :
    (updateTorrentStatus st qb).1.conditions = st.conditions := by
  unfold updateTorrentStatus
  rw [updAmountLeft_conditions, updTimeActive_conditions, updAddedOn_conditions,
      updContentPath_conditions, updTotalSize_conditions, updState_conditions,
      updName_conditions, updHash_conditions]

theorem setDegraded_finalizers (now : Nat) (t : Torrent) (reason message : String) :
    (setDegradedCondition now t reason message).finalizers = t.finalizers := rfl

theorem setAvailable_finalizers (now : Nat) (t : Torrent) (reason message : String) :
    (setAvailableCondition now t reason message).finalizers = t.finalizers := rfl

theorem statusMatches_setAvailable (now : Nat) (t : Torrent) (r m : String)
    (qb : TorrentInfo) :
    statusMatches (setAvailableCondition now t r m).status qb
      = statusMatches t.status qb := rfl

theorem setAvailable_deletionMarker (now : Nat) (t : Torrent) (r m : String) :
    (setAvailableCondition now t r m).deletionTimestampSet = t.deletionTimestampSet := rfl

theorem containsFinalizer_setAvailable (now : Nat) (t : Torrent) (r m f : String) :
    containsFinalizer (setAvailableCondition now t r m) f = containsFinalizer t f := rfl

theorem setAvailable_magnetURI (now : Nat) (t : Torrent) (r m : String) :
    (setAvailableCondition now t r m).magnetURI = t.magnetURI := rfl

/-- Claim C2: the pass preserves condition exclusivity — the conditions
list never ends up holding both Available=True and Degraded=True, because
every operation that sets one of the two removes the other. -/
theorem reconcile_pass_condition_exclusivity (env : ControllerEnv) (t : Torrent)
    (h : conditionsExclusive t.status.conditions) :
    conditionsExclusive (Reconcile env t).1.status.conditions := by
  unfold Reconcile
  split
  · unfold handleDeletion
    split
    · split
      · apply setDegraded_exclusive
      · split
        · simpa [removeFinalizer_status] using h
        · simpa [removeFinalizer_status] using h
    · split
      · simpa [removeFinalizer_status] using h
      · simpa [removeFinalizer_status] using h
  · split
    · split
      · simpa [addFinalizer_status] using h
      · simpa [addFinalizer_status] using h
    · unfold reconcile
      split
      · exact h
      · split
        · apply setDegraded_exclusive
        · split
          · apply setDegraded_exclusive
          · apply setAvailable_exclusive
        · split
          · split
            · simpa [updateTorrentStatus_conditions] using h
            · apply setAvailable_exclusive
          · apply setAvailable_exclusive

/- ### Diff no-op lemmas: each step sets its own field and leaves the
previously processed fields alone. -/

theorem updHash_hash (qb : TorrentInfo) (p : TorrentStatus × Bool) :
    (updHash qb p).1.hash = qb.hash := by
  unfold updHash
  split
  · rfl
  · next h => exact not_ne_iff.mp h

theorem updName_name (qb : TorrentInfo) (p : TorrentStatus × Bool) :
    (updName qb p).1.name = qb.name := by
  unfold updName
  split
  · rfl
  · next h => exact not_ne_iff.mp h

theorem updState_state (qb : TorrentInfo) (p : TorrentStatus × Bool) :
    (updState qb p).1.state = qb.state := by
  unfold updState
  split
  · rfl
  · next h => exact not_ne_iff.mp h

theorem updTotalSize_totalSize (qb : TorrentInfo) (p : TorrentStatus × Bool) :
    (updTotalSize qb p).1.totalSize = qb.totalSize := by
  unfold updTotalSize
  split
  · rfl
  · next h => exact not_ne_iff.mp h

theorem updContentPath_contentPath (qb : TorrentInfo) (p : TorrentStatus × Bool) :
    (updContentPath qb p).1.contentPath = qb.contentPath := by
  unfold updContentPath
  split
  · rfl
  · next h => exact not_ne_iff.mp h

theorem updAddedOn_addedOn (qb : TorrentInfo) (p : TorrentStatus × Bool) :
    (updAddedOn qb p).1.addedOn = qb.addedOn := by
  unfold updAddedOn
  split
  · rfl
  · next h => exact not_ne_iff.mp h

theorem updTimeActive_timeActive (qb : TorrentInfo) (p : TorrentStatus × Bool) :
    (updTimeActive qb p).1.timeActive = qb.timeActive := by
  unfold updTimeActive
  split
  · rfl
  · next h => exact not_ne_iff.mp h

theorem updAmountLeft_amountLeft (qb : TorrentInfo) (p : TorrentStatus × Bool) :
    (updAmountLeft qb p).1.amountLeft = qb.amountLeft := by
  unfold updAmountLeft
  split
  · rfl
  · next h => exact not_ne_iff.mp h

theorem updName_hash (qb : TorrentInfo) (p : TorrentStatus × Bool) :
    (updName qb p).1.hash = p.1.hash := by
  unfold updName
  split <;> rfl

theorem updState_hash (qb : TorrentInfo) (p : TorrentStatus × Bool) :
    (updState qb p).1.hash = p.1.hash := by
  unfold updState
  split <;> rfl

theorem updState_name (qb : TorrentInfo) (p : TorrentStatus × Bool) :
    (updState qb p).1.name = p.1.name := by
  unfold updState
  split <;> rfl

theorem updTotalSize_hash (qb : TorrentInfo) (p : TorrentStatus × Bool) :
    (updTotalSize qb p).1.hash = p.1.hash := by
  unfold updTotalSize
  split <;> rfl

theorem updTotalSize_name (qb : TorrentInfo) (p : TorrentStatus × Bool) :
    (updTotalSize qb p).1.name = p.1.name := by
  unfold updTotalSize
  split <;> rfl

theorem updTotalSize_state (qb : TorrentInfo) (p : TorrentStatus × Bool) :
    (updTotalSize qb p).1.state = p.1.state := by
  unfold updTotalSize
  split <;> rfl

theorem updContentPath_hash (qb : TorrentInfo) (p : TorrentStatus × Bool) :
    (updContentPath qb p).1.hash = p.1.hash := by
  unfold updContentPath
  split <;> rfl

theorem updContentPath_name (qb : TorrentInfo) (p : TorrentStatus × Bool) :
    (updContentPath qb p).1.name = p.1.name := by
  unfold updContentPath
  split <;> rfl

theorem updContentPath_state (qb : TorrentInfo) (p : TorrentStatus × Bool) :
    (updContentPath qb p).1.state = p.1.state := by
  unfold updContentPath
  split <;> rfl

theorem updContentPath_totalSize (qb : TorrentInfo) (p : TorrentStatus × Bool) :
    (updContentPath qb p).1.totalSize = p.1.totalSize := by
  unfold updContentPath
  split <;> rfl

theorem updAddedOn_hash (qb : TorrentInfo) (p : TorrentStatus × Bool) :
    (updAddedOn qb p).1.hash = p.1.hash := by
  unfold updAddedOn
  split <;> rfl

theorem updAddedOn_name (qb : TorrentInfo) (p : TorrentStatus × Bool) :
    (updAddedOn qb p).1.name = p.1.name := by
  unfold updAddedOn
  split <;> rfl

theorem updAddedOn_state (qb : TorrentInfo) (p : TorrentStatus × Bool) :
    (updAddedOn qb p).1.state = p.1.state := by
  unfold updAddedOn
  split <;> rfl

theorem updAddedOn_totalSize (qb : TorrentInfo) (p : TorrentStatus × Bool) :
    (updAddedOn qb p).1.totalSize = p.1.totalSize := by
  unfold updAddedOn
  split <;> rfl

theorem updAddedOn_contentPath (qb : TorrentInfo) (p : TorrentStatus × Bool) :
    (updAddedOn qb p).1.contentPath = p.1.contentPath := by
  unfold updAddedOn
  split <;> rfl

theorem updTimeActive_hash (qb : TorrentInfo) (p : TorrentStatus × Bool) :
    (updTimeActive qb p).1.hash = p.1.hash := by
  unfold updTimeActive
  split <;> rfl

theorem updTimeActive_name (qb : TorrentInfo) (p : TorrentStatus × Bool) :
    (updTimeActive qb p).1.name = p.1.name := by
  unfold updTimeActive
  split <;> rfl

theorem updTimeActive_state (qb : TorrentInfo) (p : TorrentStatus × Bool) :
    (updTimeActive qb p).1.state = p.1.state := by
  unfold updTimeActive
  split <;> rfl

theorem updTimeActive_totalSize (qb : TorrentInfo) (p : TorrentStatus × Bool) :
    (updTimeActive qb p).1.totalSize = p.1.totalSize := by
  unfold updTimeActive
  split <;> rfl

theorem updTimeActive_contentPath (qb : TorrentInfo) (p : TorrentStatus × Bool) :
    (updTimeActive qb p).1.contentPath = p.1.contentPath := by
  unfold updTimeActive
  split <;> rfl

theorem updTimeActive_addedOn (qb : TorrentInfo) (p : TorrentStatus × Bool) :
    (updTimeActive qb p).1.addedOn = p.1.addedOn := by
  unfold updTimeActive
  split <;> rfl

theorem updAmountLeft_hash (qb : TorrentInfo) (p : TorrentStatus × Bool) :
    (updAmountLeft qb p).1.hash = p.1.hash := by
  unfold updAmountLeft
  split <;> rfl

theorem updAmountLeft_name (qb : TorrentInfo) (p : TorrentStatus × Bool) :
    (updAmountLeft qb p).1.name = p.1.name := by
  unfold updAmountLeft
  split <;> rfl

theorem updAmountLeft_state (qb : TorrentInfo) (p : TorrentStatus × Bool) :
    (updAmountLeft qb p).1.state = p.1.state := by
  unfold updAmountLeft
  split <;> rfl

theorem updAmountLeft_totalSize (qb : TorrentInfo) (p : TorrentStatus × Bool) :
    (updAmountLeft qb p).1.totalSize = p.1.totalSize := by
  unfold updAmountLeft
  split <;> rfl

theorem updAmountLeft_contentPath (qb : TorrentInfo) (p : TorrentStatus × Bool) :
    (updAmountLeft qb p).1.contentPath = p.1.contentPath := by
  unfold updAmountLeft
  split <;> rfl

theorem updAmountLeft_addedOn (qb : TorrentInfo) (p : TorrentStatus × Bool) :
    (updAmountLeft qb p).1.addedOn = p.1.addedOn := by
  unfold updAmountLeft
  split <;> rfl

theorem updAmountLeft_timeActive (qb : TorrentInfo) (p : TorrentStatus × Bool) :
    (updAmountLeft qb p).1.timeActive = p.1.timeActive := by
  unfold updAmountLeft
  split <;> rfl

theorem updateTorrentStatus_matches (st : TorrentStatus) (qb : TorrentInfo) :
    statusMatches (updateTorrentStatus st qb).1 qb = true := by
  unfold statusMatches updateTorrentStatus
  simp only [Bool.and_eq_true, beq_iff_eq]
  refine ⟨⟨⟨⟨⟨⟨⟨?_, ?_⟩, ?_⟩, ?_⟩, ?_⟩, ?_⟩, ?_⟩, ?_⟩
  · rw [updAmountLeft_hash, updTimeActive_hash, updAddedOn_hash, updContentPath_hash,
        updTotalSize_hash, updState_hash, updName_hash, updHash_hash]
  · rw [updAmountLeft_name, updTimeActive_name, updAddedOn_name, updContentPath_name,
        updTotalSize_name, updState_name, updName_name]
  · rw [updAmountLeft_state, updTimeActive_state, updAddedOn_state, updContentPath_state,
        updTotalSize_state, updState_state]
  · rw [updAmountLeft_totalSize, updTimeActive_totalSize, updAddedOn_totalSize,
        updContentPath_totalSize, updTotalSize_totalSize]
  · rw [updAmountLeft_contentPath, updTimeActive_contentPath, updAddedOn_contentPath,
        updContentPath_contentPath]
  · rw [updAmountLeft_addedOn, updTimeActive_addedOn, updAddedOn_addedOn]
  · rw [updAmountLeft_timeActive, updTimeActive_timeActive]
  · rw [updAmountLeft_amountLeft]

theorem updHash_noop {qb : TorrentInfo} {p : TorrentStatus × Bool}
    (h : p.1.hash = qb.hash) : updHash qb p = p := by
  unfold updHash
  rw [if_neg (not_ne_iff.mpr h)]

theorem updName_noop {qb : TorrentInfo} {p : TorrentStatus × Bool}
    (h : p.1.name = qb.name) : updName qb p = p := by
  unfold updName
  rw [if_neg (not_ne_iff.mpr h)]

theorem updState_noop {qb : TorrentInfo} {p : TorrentStatus × Bool}
    (h : p.1.state = qb.state) : updState qb p = p := by
  unfold updState
  rw [if_neg (not_ne_iff.mpr h)]

theorem updTotalSize_noop {qb : TorrentInfo} {p : TorrentStatus × Bool}
    (h : p.1.totalSize = qb.totalSize) : updTotalSize qb p = p := by
  unfold updTotalSize
  rw [if_neg (not_ne_iff.mpr h)]

theorem updContentPath_noop {qb : TorrentInfo} {p : TorrentStatus × Bool}
    (h : p.1.contentPath = qb.contentPath) : updContentPath qb p = p := by
  unfold updContentPath
  rw [if_neg (not_ne_iff.mpr h)]

theorem updAddedOn_noop {qb : TorrentInfo} {p : TorrentStatus × Bool}
    (h : p.1.addedOn = qb.addedOn) : updAddedOn qb p = p := by
  unfold updAddedOn
  rw [if_neg (not_ne_iff.mpr h)]

theorem updTimeActive_noop {qb : TorrentInfo} {p : TorrentStatus × Bool}
    (h : p.1.timeActive = qb.timeActive) : updTimeActive qb p = p := by
  unfold updTimeActive
  rw [if_neg (not_ne_iff.mpr h)]

theorem updAmountLeft_noop {qb : TorrentInfo} {p : TorrentStatus × Bool}
    (h : p.1.amountLeft = qb.amountLeft) : updAmountLeft qb p = p := by
  unfold updAmountLeft
  rw [if_neg (not_ne_iff.mpr h)]

theorem updateTorrentStatus_of_matches {st : TorrentStatus} {qb : TorrentInfo}
    (h : statusMatches st qb = true) : updateTorrentStatus st qb = (st, false) := by
  unfold statusMatches at h
  simp only [Bool.and_eq_true, beq_iff_eq] at h
  obtain ⟨⟨⟨⟨⟨⟨⟨h1, h2⟩, h3⟩, h4⟩, h5⟩, h6⟩, h7⟩, h8⟩ := h
  unfold updateTorrentStatus
  rw [updHash_noop h1, updName_noop h2, updState_noop h3, updTotalSize_noop h4,
      updContentPath_noop h5, updAddedOn_noop h6, updTimeActive_noop h7,
      updAmountLeft_noop h8]

/- ### Idempotence of the condition setters. -/

theorem mergeCondition_self (now : Nat) (c n : Condition)
    (hst : n.status = c.status) (hr : n.reason = c.reason) (hm : n.message = c.message) :
    mergeCondition now c n = c := by
  unfold mergeCondition
  rw [hst, hr, hm]
  simp

theorem setSC_nil (now : Nat) (n : Condition) :
    setStatusCondition now [] n
      = [if n.lastTransitionTime = 0 then { n with lastTransitionTime := now } else n] := rfl

theorem setSC_cons_pos {c n : Condition} (now : Nat) (rest : List Condition)
    (h : c.condType = n.condType) :
    setStatusCondition now (c :: rest) n = mergeCondition now c n :: rest := by
  unfold setStatusCondition
  rw [if_pos h]

theorem setSC_cons_neg {c n : Condition} (now : Nat) (rest : List Condition)
    (h : c.condType ≠ n.condType) :
    setStatusCondition now (c :: rest) n = c :: setStatusCondition now rest n := by
  have he : setStatusCondition now (c :: rest) n
      = if c.condType = n.condType then mergeCondition now c n :: rest
        else c :: setStatusCondition now rest n := rfl
  rw [he, if_neg h]

theorem removeSC_cons_keep {c : Condition} {ty : String} (rest : List Condition)
    (h : (c.condType != ty) = true) :
    removeStatusCondition (c :: rest) ty = c :: removeStatusCondition rest ty := by
  unfold removeStatusCondition
  rw [List.filter_cons, if_pos h]

theorem removeSC_cons_drop {c : Condition} {ty : String} (rest : List Condition)
    (h : (c.condType != ty) = false) :
    removeStatusCondition (c :: rest) ty = removeStatusCondition rest ty := by
  unfold removeStatusCondition
  rw [List.filter_cons, h]
  simp

theorem setStatusCondition_idem (now now' : Nat) (conds : List Condition) (n n' : Condition)
    (hty : n'.condType = n.condType) (hst : n'.status = n.status)
    (hr : n'.reason = n.reason) (hm : n'.message = n.message) :
    setStatusCondition now' (setStatusCondition now conds n) n'
      = setStatusCondition now conds n := by
  induction conds with
  | nil =>
    rw [setSC_nil]
    by_cases hz : n.lastTransitionTime = 0
    · rw [if_pos hz,
          setSC_cons_pos now' []
            (show ({ n with lastTransitionTime := now } : Condition).condType
                = n'.condType from hty.symm),
          mergeCondition_self now' { n with lastTransitionTime := now } n' hst hr hm]
    · rw [if_neg hz, setSC_cons_pos now' [] hty.symm,
          mergeCondition_self now' n n' hst hr hm]
  | cons c rest ih =>
    by_cases h : c.condType = n.condType
    · rw [setSC_cons_pos now rest h,
          setSC_cons_pos now' rest
            (show (mergeCondition now c n).condType = n'.condType from h.trans hty.symm),
          mergeCondition_self now' (mergeCondition now c n) n' hst hr hm]
    · rw [setSC_cons_neg now rest h,
          setSC_cons_neg now' (setStatusCondition now rest n)
            (fun hc => h (hc.trans hty)),
          ih]

theorem setStatusCondition_remove_comm (now : Nat) (conds : List Condition)
    (n : Condition) (ty : String) (hne : n.condType ≠ ty) :
    removeStatusCondition (setStatusCondition now conds n) ty
      = setStatusCondition now (removeStatusCondition conds ty) n := by
  induction conds with
  | nil =>
    rw [setSC_nil, show removeStatusCondition [] ty = [] from rfl, setSC_nil]
    by_cases hz : n.lastTransitionTime = 0
    · rw [if_pos hz,
          removeSC_cons_keep []
            (show (({ n with lastTransitionTime := now } : Condition).condType != ty) = true
              from bne_iff_ne.mpr hne)]
      rfl
    · rw [if_neg hz, removeSC_cons_keep [] (bne_iff_ne.mpr hne)]
      rfl
  | cons c rest ih =>
    by_cases h : c.condType = n.condType
    · have hcty : (c.condType != ty) = true :=
        bne_iff_ne.mpr (fun hc => hne (h.symm.trans hc))
      rw [setSC_cons_pos now rest h,
          removeSC_cons_keep rest
            (show ((mergeCondition now c n).condType != ty) = true from hcty),
          removeSC_cons_keep rest hcty,
          setSC_cons_pos now (removeStatusCondition rest ty) h]
    · by_cases hct : c.condType = ty
      · have hcf : (c.condType != ty) = false := by simp [hct]
        rw [setSC_cons_neg now rest h,
            removeSC_cons_drop (setStatusCondition now rest n) hcf,
            removeSC_cons_drop rest hcf, ih]
      · have hcT : (c.condType != ty) = true := bne_iff_ne.mpr hct
        rw [setSC_cons_neg now rest h,
            removeSC_cons_keep (setStatusCondition now rest n) hcT,
            removeSC_cons_keep rest hcT,
            setSC_cons_neg now (removeStatusCondition rest ty) h, ih]

theorem removeStatusCondition_idem (conds : List Condition) (ty : String) :
    removeStatusCondition (removeStatusCondition conds ty) ty
      = removeStatusCondition conds ty := by
  induction conds with
  | nil => rfl
  | cons c rest ih =>
    unfold removeStatusCondition at *
    rw [List.filter_cons]
    by_cases h : (c.condType != ty) = true
    · rw [if_pos h, List.filter_cons, if_pos h, ih]
    · rw [if_neg h, ih]

theorem availableConds_idem (now now' : Nat) (conds : List Condition) (r m : String) :
    removeStatusCondition
      (setStatusCondition now'
        (removeStatusCondition
          (setStatusCondition now conds
            ⟨TypeAvailableTorrent, conditionTrue, r, m, now⟩)
          TypeDegradedTorrent)
        ⟨TypeAvailableTorrent, conditionTrue, r, m, now'⟩)
      TypeDegradedTorrent
    = removeStatusCondition
        (setStatusCondition now conds ⟨TypeAvailableTorrent, conditionTrue, r, m, now⟩)
        TypeDegradedTorrent := by
  rw [← setStatusCondition_remove_comm now'
        (setStatusCondition now conds ⟨TypeAvailableTorrent, conditionTrue, r, m, now⟩)
        ⟨TypeAvailableTorrent, conditionTrue, r, m, now'⟩ TypeDegradedTorrent
        (fun hc => (by decide : TypeAvailableTorrent ≠ TypeDegradedTorrent) hc),
      removeStatusCondition_idem,
      setStatusCondition_idem now now' conds
        ⟨TypeAvailableTorrent, conditionTrue, r, m, now⟩
        ⟨TypeAvailableTorrent, conditionTrue, r, m, now'⟩ rfl rfl rfl rfl]

theorem setAvailableCondition_idem (now now' : Nat) (t : Torrent) (r m : String) :
    setAvailableCondition now' (setAvailableCondition now t r m) r m
      = setAvailableCondition now t r m := by
  simp only [setAvailableCondition]
  rw [availableConds_idem]

/-- The found branch of the pass: with the finalizer present, no deletion
marker, a well-formed magnet URI, a found remote record and a working
status store, the pass overwrites differing fields and sets
Available/TorrentActive. -/
theorem reconcile_found_pass (env : ControllerEnv) (u : Torrent)
    (info : TorrentInfo) (hsh : List Char)
    (hdel : u.deletionTimestampSet = false)
    (hfin : containsFinalizer u TorrentFinalizer = true)
    (hhash : GetTorrentHash u.magnetURI.data = .ok hsh)
    (hinfo : env.getTorrentInfoResult = .ok (some info))
    (hpersist : env.statusUpdateError 0 = none) :
    Reconcile env u
      = (setAvailableCondition env.now
          { u with status := (updateTorrentStatus u.status info).1 }
          "TorrentActive" "Torrent is active on qBittorrent",
         ⟨30, none⟩, [.getTorrentInfo]) := by
  unfold Reconcile reconcile
  rw [if_neg (by rw [hdel]; exact Bool.false_ne_true),
      if_neg (by rw [hfin]; simp)]
  simp only [hhash, hinfo]
  by_cases hdiff : (updateTorrentStatus u.status info).2 = true
  · rw [if_pos hdiff]
    simp only [hpersist]
  · rw [if_neg hdiff]

/-- Witness for `reconcile_found_pass` at a concrete resource. -/
theorem reconcile_found_pass_witness :
    (Reconcile
      { now := 11, deleteTorrentError := none
        getTorrentInfoResult := .ok (some
          { addedOn := 5, amountLeft := 0, contentPath := "/downloads", hash := "ABC123"
            magnetURI := "magnet:?xt=urn:btih:ABC123&dn=test", name := "test", size := 9
            state := "uploading", totalSize := 9, timeActive := 2 })
        addTorrentError := none, resourceUpdateError := none
        statusUpdateError := fun _ => none }
      { deletionTimestampSet := false, finalizers := [TorrentFinalizer]
        magnetURI := "magnet:?xt=urn:btih:ABC123&dn=test"
        status := { contentPath := "/downloads", addedOn := 5, state := "downloading"
                    totalSize := 9, name := "test", timeActive := 1, amountLeft := 3
                    hash := "ABC123", conditions := [] } }).2.1
      = ⟨30, none⟩ := by
  have h := reconcile_found_pass
    { now := 11, deleteTorrentError := none
      getTorrentInfoResult := .ok (some
        { addedOn := 5, amountLeft := 0, contentPath := "/downloads", hash := "ABC123"
          magnetURI := "magnet:?xt=urn:btih:ABC123&dn=test", name := "test", size := 9
          state := "uploading", totalSize := 9, timeActive := 2 })
      addTorrentError := none, resourceUpdateError := none
      statusUpdateError := fun _ => none }
    { deletionTimestampSet := false, finalizers := [TorrentFinalizer]
      magnetURI := "magnet:?xt=urn:btih:ABC123&dn=test"
      status := { contentPath := "/downloads", addedOn := 5, state := "downloading"
                  totalSize := 9, name := "test", timeActive := 1, amountLeft := 3
                  hash := "ABC123", conditions := [] } }
    { addedOn := 5, amountLeft := 0, contentPath := "/downloads", hash := "ABC123"
      magnetURI := "magnet:?xt=urn:btih:ABC123&dn=test", name := "test", size := 9
      state := "uploading", totalSize := 9, timeActive := 2 }
    "ABC123".data rfl (by decide) rfl rfl rfl
  rw [h]

/-- Claim C6: reconciling an already-settled resource a second time with
no remote-side change is a no-op: the field diff on the second pass
reports no change and the status (fields and conditions) is unchanged. -/
theorem settled_pass_idempotent (env : ControllerEnv) (t : Torrent)
    (info : TorrentInfo) (hsh : List Char)
    (hdel : t.deletionTimestampSet = false)
    (hfin : containsFinalizer t TorrentFinalizer = true)
    (hhash : GetTorrentHash t.magnetURI.data = .ok hsh)
    (hinfo : env.getTorrentInfoResult = .ok (some info))
    (hpersist : env.statusUpdateError 0 = none) :
    (updateTorrentStatus (Reconcile env t).1.status info).2 = false
    ∧ (Reconcile env (Reconcile env t).1).1.status = (Reconcile env t).1.status := by
  have hred : (Reconcile env t).1
      = setAvailableCondition env.now
          { t with status := (updateTorrentStatus t.status info).1 }
          "TorrentActive" "Torrent is active on qBittorrent" := by
    rw [reconcile_found_pass env t info hsh hdel hfin hhash hinfo hpersist]
  have ht1status : statusMatches (Reconcile env t).1.status info = true := by
    rw [hred, statusMatches_setAvailable]
    exact updateTorrentStatus_matches t.status info
  have hnoop : updateTorrentStatus (Reconcile env t).1.status info
      = ((Reconcile env t).1.status, false) := updateTorrentStatus_of_matches ht1status
  refine ⟨by rw [hnoop], ?_⟩
  have hdel1 : (Reconcile env t).1.deletionTimestampSet = false := by
    rw [hred, setAvailable_deletionMarker]
    exact hdel
  have hfin1 : containsFinalizer (Reconcile env t).1 TorrentFinalizer = true := by
    rw [hred, containsFinalizer_setAvailable]
    exact hfin
  have hhash1 : GetTorrentHash (Reconcile env t).1.magnetURI.data = .ok hsh := by
    rw [hred, setAvailable_magnetURI]
    exact hhash
  have hred2 : (Reconcile env (Reconcile env t).1).1
      = setAvailableCondition env.now
          { (Reconcile env t).1 with
              status := (updateTorrentStatus (Reconcile env t).1.status info).1 }
          "TorrentActive" "Torrent is active on qBittorrent" := by
    rw [reconcile_found_pass env (Reconcile env t).1 info hsh hdel1 hfin1 hhash1
          hinfo hpersist]
  rw [hred2, hnoop]
  rw [show ({ (Reconcile env t).1 with status := (Reconcile env t).1.status })
        = (Reconcile env t).1 from rfl]
  rw [hred, setAvailableCondition_idem]

/-- Witness for `settled_pass_idempotent` at a concrete settled resource. -/
theorem settled_pass_idempotent_witness :
    (updateTorrentStatus (Reconcile
      { now := 11, deleteTorrentError := none
        getTorrentInfoResult := .ok (some
          { addedOn := 5, amountLeft := 0, contentPath := "/d", hash := "ABC"
            magnetURI := "m", name := "n", size := 9
            state := "uploading", totalSize := 9, timeActive := 2 })
        addTorrentError := none, resourceUpdateError := none
        statusUpdateError := fun _ => none }
      { deletionTimestampSet := false, finalizers := [TorrentFinalizer]
        magnetURI := "magnet:?xt=urn:btih:ABC&dn=t"
        status := { contentPath := "", addedOn := 0, state := "", totalSize := 0
                    name := "", timeActive := 0, amountLeft := 0, hash := ""
                    conditions := [] } }).1.status
      { addedOn := 5, amountLeft := 0, contentPath := "/d", hash := "ABC"
        magnetURI := "m", name := "n", size := 9
        state := "uploading", totalSize := 9, timeActive := 2 }).2 = false :=
  (settled_pass_idempotent
    { now := 11, deleteTorrentError := none
      getTorrentInfoResult := .ok (some
        { addedOn := 5, amountLeft := 0, contentPath := "/d", hash := "ABC"
          magnetURI := "m", name := "n", size := 9
          state := "uploading", totalSize := 9, timeActive := 2 })
      addTorrentError := none, resourceUpdateError := none
      statusUpdateError := fun _ => none }
    { deletionTimestampSet := false, finalizers := [TorrentFinalizer]
      magnetURI := "magnet:?xt=urn:btih:ABC&dn=t"
      status := { contentPath := "", addedOn := 0, state := "", totalSize := 0
                  name := "", timeActive := 0, amountLeft := 0, hash := ""
                  conditions := [] } }
    { addedOn := 5, amountLeft := 0, contentPath := "/d", hash := "ABC"
      magnetURI := "m", name := "n", size := 9
      state := "uploading", totalSize := 9, timeActive := 2 }
    "ABC".data rfl (by decide) rfl rfl rfl).1

/-- Claim C1: on a pass over a resource with the deletion marker and a
non-empty observed hash, a DeleteTorrent failure leaves the finalizer in
place, sets Degraded with reason FailedToDeleteTorrent, and returns a
10-second requeue with no error; and on any deletion-marked pass the
finalizer is removed only when DeleteTorrent succeeds or the observed
hash is empty. -/
theorem deletion_guard (env : ControllerEnv) (t : Torrent) (emsg : String)
    (hdel : t.deletionTimestampSet = true)
    (hhash : t.status.hash ≠ "")
    (hfail : env.deleteTorrentError = some emsg) :
    ((containsFinalizer t TorrentFinalizer = true →
        containsFinalizer (Reconcile env t).1 TorrentFinalizer = true)
      ∧ hasCondTrueReason (Reconcile env t).1.status.conditions
          TypeDegradedTorrent "FailedToDeleteTorrent" = true
      ∧ (Reconcile env t).2.1 = ⟨10, none⟩)
    ∧ ∀ (env' : ControllerEnv) (t' : Torrent),
        t'.deletionTimestampSet = true →
        containsFinalizer t' TorrentFinalizer = true →
        containsFinalizer (Reconcile env' t').1 TorrentFinalizer = false →
        env'.deleteTorrentError = none ∨ t'.status.hash = "" := by
  have hred : Reconcile env t
      = (setDegradedCondition env.now t "FailedToDeleteTorrent" emsg,
         ⟨10, none⟩, [.deleteTorrent]) := by
    unfold Reconcile handleDeletion
    rw [if_pos hdel, if_pos hhash, hfail]
  constructor
  · rw [hred]
    refine ⟨?_, ?_, rfl⟩
    · intro hfin
      unfold containsFinalizer at hfin ⊢
      rw [setDegraded_finalizers]
      exact hfin
    · exact setDegraded_has_degraded env.now t "FailedToDeleteTorrent" emsg
  · intro env' t' hdel' hfin' hrem
    by_cases hh : t'.status.hash = ""
    · right
      exact hh
    · left
      rcases hdc : env'.deleteTorrentError with _ | e
      · rfl
      · exfalso
        have hred' : Reconcile env' t'
            = (setDegradedCondition env'.now t' "FailedToDeleteTorrent" e,
               ⟨10, none⟩, [.deleteTorrent]) := by
          unfold Reconcile handleDeletion
          rw [if_pos hdel', if_pos hh, hdc]
        rw [hred'] at hrem
        unfold containsFinalizer at hrem hfin'
        rw [setDegraded_finalizers, hfin'] at hrem
        cases hrem

/-- Witness for `deletion_guard`: concrete deletion-marked resource whose
remote delete fails. -/
theorem deletion_guard_witness :
    containsFinalizer (Reconcile
      { now := 3, deleteTorrentError := some "remote down"
        getTorrentInfoResult := .ok none, addTorrentError := none
        resourceUpdateError := none, statusUpdateError := fun _ => none }
      { deletionTimestampSet := true, finalizers := [TorrentFinalizer]
        magnetURI := ""
        status := { contentPath := "", addedOn := 0, state := "", totalSize := 0
                    name := "", timeActive := 0, amountLeft := 0, hash := "abc"
                    conditions := [] } }).1 TorrentFinalizer = true :=
  (deletion_guard _ _ "remote down" rfl (by decide) rfl).1.1 (by decide)

/-- Claim C8: on a pass with no deletion marker and no finalizer, the pass
adds the finalizer, persists, returns a 1-second requeue, and performs no
remote call and no other mutation. -/
theorem finalizer_add_pass (env : ControllerEnv) (t : Torrent)
    (hdel : t.deletionTimestampSet = false)
    (hfin : containsFinalizer t TorrentFinalizer = false)
    (hupd : env.resourceUpdateError = none) :
    Reconcile env t
      = ({ t with finalizers := t.finalizers ++ [TorrentFinalizer] }, ⟨1, none⟩, []) := by
  unfold Reconcile
  rw [if_neg (by rw [hdel]; exact Bool.false_ne_true), if_pos hfin, hupd]
  unfold addFinalizer
  rw [if_neg (fun hc => by
    have hc' : containsFinalizer t TorrentFinalizer = true := hc
    rw [hfin] at hc'
    cases hc')]

/-- Witness for `finalizer_add_pass` at a concrete fresh resource. -/
theorem finalizer_add_pass_witness :
    (Reconcile
      { now := 3, deleteTorrentError := none
        getTorrentInfoResult := .ok none, addTorrentError := none
        resourceUpdateError := none, statusUpdateError := fun _ => none }
      { deletionTimestampSet := false, finalizers := []
        magnetURI := "magnet:?xt=urn:btih:ABC123&dn=test"
        status := { contentPath := "", addedOn := 0, state := "", totalSize := 0
                    name := "", timeActive := 0, amountLeft := 0, hash := ""
                    conditions := [] } }).2
      = (⟨1, none⟩, []) := by
  rw [finalizer_add_pass _ _ rfl (by decide) rfl]

/-- Claim C4, counterexample: a pass in which a status persist fails (the
environment reports every status write as failing) yet the pass returns a
10-second requeue with no error instead of propagating a hard failure —
the condition-recording status writes are logged-and-ignored. -/
theorem persist_error_counterexample :
    (Reconcile
      { now := 0, deleteTorrentError := some "remote down"
        getTorrentInfoResult := .ok none, addTorrentError := none
        resourceUpdateError := none
        statusUpdateError := fun _ => some "persist failed" }
      { deletionTimestampSet := true, finalizers := [TorrentFinalizer]
        magnetURI := ""
        status := { contentPath := "", addedOn := 0, state := "", totalSize := 0
                    name := "", timeActive := 0, amountLeft := 0, hash := "abc"
                    conditions := [] } }).2.1 = ⟨10, none⟩ := rfl

/-- Claim C4 (amended): store-write failures are propagated as hard
failures for the resource updates that add or remove the finalizer and
for the field-diff status write in the found path; the status writes that
merely record conditions — Degraded after a delete, get or add failure,
Available after an add and in steady state — are logged and ignored, and
the pass still returns its requeue outcome with no error, whatever the
environment reports for those status writes. -/
theorem persist_error_propagation (env : ControllerEnv) (t : Torrent)
    (emsg gmsg amsg : String) (info : TorrentInfo) (hsh : List Char) :
    (t.deletionTimestampSet = false → containsFinalizer t TorrentFinalizer = false →
      env.resourceUpdateError = some emsg →
      (Reconcile env t).2.1 = ⟨0, some (.storeWrite emsg)⟩)
    ∧ (t.deletionTimestampSet = true →
      (t.status.hash = "" ∨ env.deleteTorrentError = none) →
      env.resourceUpdateError = some emsg →
      (Reconcile env t).2.1 = ⟨0, some (.storeWrite emsg)⟩)
    ∧ (t.deletionTimestampSet = false → containsFinalizer t TorrentFinalizer = true →
      GetTorrentHash t.magnetURI.data = .ok hsh →
      env.getTorrentInfoResult = .ok (some info) →
      (updateTorrentStatus t.status info).2 = true →
      env.statusUpdateError 0 = some emsg →
      (Reconcile env t).2.1 = ⟨0, some (.storeWrite emsg)⟩)
    ∧ (t.deletionTimestampSet = true → t.status.hash ≠ "" →
      env.deleteTorrentError = some emsg →
      (Reconcile env t).2.1 = ⟨10, none⟩)
    ∧ (t.deletionTimestampSet = false → containsFinalizer t TorrentFinalizer = true →
      GetTorrentHash t.magnetURI.data = .ok hsh →
      env.getTorrentInfoResult = .error gmsg →
      (Reconcile env t).2.1 = ⟨10, none⟩)
    ∧ (t.deletionTimestampSet = false → containsFinalizer t TorrentFinalizer = true →
      GetTorrentHash t.magnetURI.data = .ok hsh →
      env.getTorrentInfoResult = .ok none →
      env.addTorrentError = some amsg →
      (Reconcile env t).2.1 = ⟨10, none⟩)
    ∧ (t.deletionTimestampSet = false → containsFinalizer t TorrentFinalizer = true →
      GetTorrentHash t.magnetURI.data = .ok hsh →
      env.getTorrentInfoResult = .ok none →
      env.addTorrentError = none →
      (Reconcile env t).2.1 = ⟨5, none⟩)
    ∧ (t.deletionTimestampSet = false → containsFinalizer t TorrentFinalizer = true →
      GetTorrentHash t.magnetURI.data = .ok hsh →
      env.getTorrentInfoResult = .ok (some info) →
      (updateTorrentStatus t.status info).2 = false →
      (Reconcile env t).2.1 = ⟨30, none⟩)
    ∧ (t.deletionTimestampSet = false → containsFinalizer t TorrentFinalizer = true →
      GetTorrentHash t.magnetURI.data = .ok hsh →
      env.getTorrentInfoResult = .ok (some info) →
      (updateTorrentStatus t.status info).2 = true →
      env.statusUpdateError 0 = none →
      (Reconcile env t).2.1 = ⟨30, none⟩) := by
  refine ⟨?_, ?_, ?_, ?_, ?_, ?_, ?_, ?_, ?_⟩
  · intro hdel hfin hupd
    unfold Reconcile
    rw [if_neg (by rw [hdel]; exact Bool.false_ne_true), if_pos hfin, hupd]
  · intro hdel hsucc hupd
    unfold Reconcile handleDeletion
    rw [if_pos hdel]
    rcases hsucc with hh | hdc
    · rw [if_neg (by simp [hh]), hupd]
    · by_cases hh : t.status.hash ≠ ""
      · rw [if_pos hh, hdc, hupd]
      · rw [if_neg hh, hupd]
  · intro hdel hfin hhash hinfo hdiff hst
    unfold Reconcile reconcile
    rw [if_neg (by rw [hdel]; exact Bool.false_ne_true),
        if_neg (by rw [hfin]; simp)]
    simp only [hhash, hinfo, hdiff, eq_self_iff_true, if_true, hst]
  · intro hdel hh hdc
    unfold Reconcile handleDeletion
    rw [if_pos hdel, if_pos hh, hdc]
  · intro hdel hfin hhash hinfo
    unfold Reconcile reconcile
    rw [if_neg (by rw [hdel]; exact Bool.false_ne_true),
        if_neg (by rw [hfin]; simp)]
    simp only [hhash, hinfo]
  · intro hdel hfin hhash hinfo hadd
    unfold Reconcile reconcile
    rw [if_neg (by rw [hdel]; exact Bool.false_ne_true),
        if_neg (by rw [hfin]; simp)]
    simp only [hhash, hinfo, hadd]
  · intro hdel hfin hhash hinfo hadd
    unfold Reconcile reconcile
    rw [if_neg (by rw [hdel]; exact Bool.false_ne_true),
        if_neg (by rw [hfin]; simp)]
    simp only [hhash, hinfo, hadd]
  · intro hdel hfin hhash hinfo hdiff
    unfold Reconcile reconcile
    rw [if_neg (by rw [hdel]; exact Bool.false_ne_true),
        if_neg (by rw [hfin]; simp)]
    simp only [hhash, hinfo]
    rw [if_neg (by rw [hdiff]; simp)]
  · intro hdel hfin hhash hinfo hdiff hst
    unfold Reconcile reconcile
    rw [if_neg (by rw [hdel]; exact Bool.false_ne_true),
        if_neg (by rw [hfin]; simp)]
    simp only [hhash, hinfo, hdiff, eq_self_iff_true, if_true, hst]

/-- Witness for `persist_error_propagation`: the finalizer-add update
fails with a store error and the pass propagates it. -/
theorem persist_error_propagation_witness :
    (Reconcile
      { now := 0, deleteTorrentError := none
        getTorrentInfoResult := .ok none, addTorrentError := none
        resourceUpdateError := some "store down"
        statusUpdateError := fun _ => none }
      { deletionTimestampSet := false, finalizers := []
        magnetURI := ""
        status := { contentPath := "", addedOn := 0, state := "", totalSize := 0
                    name := "", timeActive := 0, amountLeft := 0, hash := ""
                    conditions := [] } }).2.1
      = ⟨0, some (.storeWrite "store down")⟩ :=
  (persist_error_propagation _ _ "store down" "get failed" "add failed"
    { addedOn := 0, amountLeft := 0, contentPath := "", hash := "", magnetURI := ""
      name := "", size := 0, state := "", totalSize := 0, timeActive := 0 }
    []).1 rfl (by decide) rfl

/-- Witness for `reconcile_pass_condition_exclusivity` at a concrete
resource and environment. -/
theorem reconcile_pass_condition_exclusivity_witness :
    conditionsExclusive (Reconcile
      { now := 7, deleteTorrentError := none
        getTorrentInfoResult := .ok none, addTorrentError := none
        resourceUpdateError := none, statusUpdateError := fun _ => none }
      { deletionTimestampSet := false, finalizers := [TorrentFinalizer]
        magnetURI := "magnet:?xt=urn:btih:ABC123&dn=test"
        status := { contentPath := "", addedOn := 0, state := "", totalSize := 0
                    name := "", timeActive := 0, amountLeft := 0, hash := ""
                    conditions := [] } }).1.status.conditions :=
  reconcile_pass_condition_exclusivity _ _ (by intro hcontra; simp [hasCondTrue] at hcontra)

/- ### Client claims. -/

/-- Claim C5, counterexample: a 200 login response with no session cookie
does not produce an error when the client already holds a previous
non-empty session token — the stale token is silently kept. -/
theorem login_missing_cookie_counterexample :
    Login { baseURL := "http://q", sessionID := "old" }
      (fun _ => .ok { statusCode := 200, cookies := [] }) "u" "p"
      = ({ baseURL := "http://q", sessionID := "old" }, none) := rfl

/-- Claim C5 (amended): on a success (200) login response, if a session
cookie named SID is present, its (first) value `v` is stored in the
client, failing only when `v` is empty; if no SID cookie is present, the
call fails with an authentication error exactly when the client's stored
session token is empty, and otherwise succeeds keeping the old token. -/
theorem login_session_cookie (c : Client)
    (transport : HttpRequest → Except String LoginResponse)
    (username password : String) (r : LoginResponse)
    (hresp : transport
        { method := "POST", url := c.baseURL ++ "/api/v2/auth/login"
          cookieSID := ""
          formFields := [("username", username), ("password", password)] } = .ok r)
    (hstatus : r.statusCode = 200) :
    (match findSID r.cookies with
     | some v =>
         Login c transport username password
           = ({ c with sessionID := v },
              if v = "" then some "failed to get session ID from qbittorrent response"
              else none)
     | none =>
         Login c transport username password
           = (c, if c.sessionID = ""
                 then some "failed to get session ID from qbittorrent response"
                 else none)) := by
  have hne : ¬(r.statusCode ≠ 200) := by
    rw [hstatus]
    simp
  rcases hf : findSID r.cookies with _ | v
  · simp only [hf]
    unfold Login
    simp only [hresp, hf]
    rw [if_neg hne]
    by_cases hc : c.sessionID = "" <;> simp [hc]
  · simp only [hf]
    unfold Login
    simp only [hresp, hf]
    rw [if_neg hne]
    by_cases hv : v = "" <;> simp [hv]

/-- Witness for `login_session_cookie`: a fresh client stores the token
from the SID cookie. -/
theorem login_session_cookie_witness :
    Login { baseURL := "http://q", sessionID := "" }
      (fun _ => .ok { statusCode := 200, cookies := [("other", "x"), ("SID", "tok")] })
      "u" "p"
      = ({ baseURL := "http://q", sessionID := "tok" }, none) :=
  login_session_cookie { baseURL := "http://q", sessionID := "" }
    (fun _ => .ok { statusCode := 200, cookies := [("other", "x"), ("SID", "tok")] })
    "u" "p" { statusCode := 200, cookies := [("other", "x"), ("SID", "tok")] } rfl rfl

/-- The list call never modifies the client record. -/
theorem GetTorrentsInfo_client (c : Client)
    (transport : HttpRequest → Except String InfoResponse) :
    (GetTorrentsInfo c transport).1 = c := by
  unfold GetTorrentsInfo
  split
  · rfl
  · split
    · split
      · rfl
      · rfl
    · split
      · rfl
      · rfl

theorem findTorrent_eq_none {l : List TorrentInfo} {h : String}
    (hall : ∀ ti ∈ l, ti.hash ≠ h) : findTorrent l h = none := by
  induction l with
  | nil => rfl
  | cons ti rest ih =>
    have he : findTorrent (ti :: rest) h
        = if ti.hash = h then some ti else findTorrent rest h := rfl
    rw [he, if_neg (hall ti (by simp))]
    exact ih (fun x hx => hall x (by simp [hx]))

theorem findTorrent_first {l1 l2 : List TorrentInfo} {ti : TorrentInfo} {h : String}
    (hti : ti.hash = h) (hl1 : ∀ x ∈ l1, x.hash ≠ h) :
    findTorrent (l1 ++ ti :: l2) h = some ti := by
  induction l1 with
  | nil =>
    have he : findTorrent (ti :: l2) h
        = if ti.hash = h then some ti else findTorrent l2 h := rfl
    rw [List.nil_append, he, if_pos hti]
  | cons x rest ih =>
    have he : findTorrent (x :: (rest ++ ti :: l2)) h
        = if x.hash = h then some x else findTorrent (rest ++ ti :: l2) h := rfl
    rw [List.cons_append, he, if_neg (hl1 x (by simp))]
    exact ih (fun y hy => hl1 y (by simp [hy]))

/-- Claim C7: when the list call succeeds and no record carries the hash,
GetTorrentInfo returns a null result with no error; when the list call
fails, the error is propagated. -/
theorem getTorrent_not_found (c : Client)
    (transport : HttpRequest → Except String InfoResponse) (hash : String) :
    (∀ l, (GetTorrentsInfo c transport).2 = .ok l → (∀ ti ∈ l, ti.hash ≠ hash) →
        (GetTorrentInfo c transport hash).2 = .ok none)
    ∧ (∀ e, (GetTorrentsInfo c transport).2 = .error e →
        (GetTorrentInfo c transport hash).2
          = .error ("failed to get torrents info list: " ++ e)) := by
  constructor
  · intro l hok hall
    unfold GetTorrentInfo
    rcases hg : GetTorrentsInfo c transport with ⟨c1, res⟩
    rw [hg] at hok
    simp only at hok
    subst hok
    simp only [findTorrent_eq_none hall]
  · intro e herr
    unfold GetTorrentInfo
    rcases hg : GetTorrentsInfo c transport with ⟨c1, res⟩
    rw [hg] at herr
    simp only at herr
    subst herr
    rfl

/-- Witness for `getTorrent_not_found`: a hash absent from the listed
records yields a null result without error. -/
theorem getTorrent_not_found_witness :
    (GetTorrentInfo { baseURL := "http://q", sessionID := "s" }
      (fun _ => .ok { statusCode := 200, decodedBody := .ok <|
        [{ addedOn := 1, amountLeft := 2, contentPath := "/a", hash := "h1"
           magnetURI := "m1", name := "n1", size := 3, state := "downloading"
           totalSize := 4, timeActive := 5 }] })
      "absent").2 = .ok none :=
  (getTorrent_not_found { baseURL := "http://q", sessionID := "s" }
    (fun _ => .ok { statusCode := 200, decodedBody := .ok <|
      [{ addedOn := 1, amountLeft := 2, contentPath := "/a", hash := "h1"
         magnetURI := "m1", name := "n1", size := 3, state := "downloading"
         totalSize := 4, timeActive := 5 }] })
    "absent").1
    [{ addedOn := 1, amountLeft := 2, contentPath := "/a", hash := "h1"
       magnetURI := "m1", name := "n1", size := 3, state := "downloading"
       totalSize := 4, timeActive := 5 }]
    rfl (by decide)

/-- Claim C10: with duplicate hashes in the remote list, GetTorrentInfo
returns the record at the lowest index. -/
theorem getTorrent_first_match (c : Client)
    (transport : HttpRequest → Except String InfoResponse) (hash : String)
    (l1 l2 : List TorrentInfo) (ti : TorrentInfo)
    (hres : (GetTorrentsInfo c transport).2 = .ok (l1 ++ ti :: l2))
    (hti : ti.hash = hash) (hl1 : ∀ x ∈ l1, x.hash ≠ hash) :
    (GetTorrentInfo c transport hash).2 = .ok (some ti) := by
  unfold GetTorrentInfo
  rcases hg : GetTorrentsInfo c transport with ⟨c1, res⟩
  rw [hg] at hres
  simp only at hres
  subst hres
  simp only [findTorrent_first hti hl1]

/-- Witness for `getTorrent_first_match`: two records with the same hash,
the first one is returned. -/
theorem getTorrent_first_match_witness :
    (GetTorrentInfo { baseURL := "http://q", sessionID := "s" }
      (fun _ => .ok { statusCode := 200, decodedBody := .ok <|
        [{ addedOn := 1, amountLeft := 2, contentPath := "/a", hash := "dup"
           magnetURI := "m1", name := "first", size := 3, state := "downloading"
           totalSize := 4, timeActive := 5 },
         { addedOn := 6, amountLeft := 7, contentPath := "/b", hash := "dup"
           magnetURI := "m2", name := "second", size := 8, state := "uploading"
           totalSize := 9, timeActive := 10 }] })
      "dup").2
      = .ok (some
        { addedOn := 1, amountLeft := 2, contentPath := "/a", hash := "dup"
          magnetURI := "m1", name := "first", size := 3, state := "downloading"
          totalSize := 4, timeActive := 5 }) :=
  getTorrent_first_match { baseURL := "http://q", sessionID := "s" }
    (fun _ => .ok { statusCode := 200, decodedBody := .ok <|
      [{ addedOn := 1, amountLeft := 2, contentPath := "/a", hash := "dup"
         magnetURI := "m1", name := "first", size := 3, state := "downloading"
         totalSize := 4, timeActive := 5 },
       { addedOn := 6, amountLeft := 7, contentPath := "/b", hash := "dup"
         magnetURI := "m2", name := "second", size := 8, state := "uploading"
         totalSize := 9, timeActive := 10 }] })
    "dup" []
    [{ addedOn := 6, amountLeft := 7, contentPath := "/b", hash := "dup"
       magnetURI := "m2", name := "second", size := 8, state := "uploading"
       totalSize := 9, timeActive := 10 }]
    { addedOn := 1, amountLeft := 2, contentPath := "/a", hash := "dup"
      magnetURI := "m1", name := "first", size := 3, state := "downloading"
      totalSize := 4, timeActive := 5 }
    rfl rfl (by intro x hx; cases hx)

/-- Claim C9: list, lookup, add and delete never modify the client's
stored session token or base URL, whatever the transport outcome; in the
embedding the whole client record is returned unchanged. -/
theorem client_ops_preserve_session (c : Client)
    (trInfo : HttpRequest → Except String InfoResponse)
    (trStatus : HttpRequest → Except String StatusResponse)
    (hash magnetURI : String) (deleteFiles : Bool) :
    (GetTorrentsInfo c trInfo).1 = c
    ∧ (GetTorrentInfo c trInfo hash).1 = c
    ∧ (AddTorrent c trStatus magnetURI).1 = c
    ∧ (DeleteTorrent c trStatus hash deleteFiles).1 = c := by
  refine ⟨GetTorrentsInfo_client c trInfo, ?_, ?_, ?_⟩
  · unfold GetTorrentInfo
    have h1 := GetTorrentsInfo_client c trInfo
    rcases hg : GetTorrentsInfo c trInfo with ⟨c1, res⟩
    rw [hg] at h1
    simp only at h1
    cases res
    · simpa using h1
    · simpa using h1
  · unfold AddTorrent
    split
    · rfl
    · split
      · split
        · rfl
        · rfl
      · rfl
  · unfold DeleteTorrent
    split
    · rfl
    · split
      · split
        · rfl
        · rfl
      · rfl

end QbtOp
